import Mathlib

/-!
Verification of the progress-tracking layer of a voice question-answering
pipeline (`backend/progress_tracker.py`).

Three stream observers sit inside the speech-to-text → language-model →
text-to-speech pipeline:

* `STTProgressProcessor` — reacts to interim/final transcription frames;
* `LLMProgressProcessor` — reacts to generation start / text chunk / end frames;
* `TTSStatusProcessor`   — reacts to playback started / stopped / chunk /
  interruption frames.

Each observer inspects every frame flowing through `process_frame`, pushes
zero or more out-of-band `OutputTransportMessageFrame` notifications
downstream, and finally forwards the original frame in its original
direction.  We embed each `process_frame` as a pure step function
`State → Frame → Direction → Nat → State × List Output` where the `Nat`
argument is the wall-clock millisecond timestamp read by
`int(time.time() * 1000)` when a transcript notification is built, and
`Output` distinguishes notification pushes from the forwarding push.
-/

/-- Direction argument of `process_frame` / `push_frame`
(`FrameDirection.DOWNSTREAM` / `FrameDirection.UPSTREAM`). -/
inductive Direction where
  | downstream
  | upstream
  deriving DecidableEq, Repr

/-- The pipeline frames the three observers branch on
(`InterimTranscriptionFrame`, `TranscriptionFrame`,
`LLMFullResponseStartFrame`, `LLMTextFrame`, `LLMFullResponseEndFrame`,
`TTSStartedFrame`, `TTSStoppedFrame`, `TTSSpeakFrame`,
`StartInterruptionFrame`), plus `other` for the open set of frame kinds the
observers ignore and forward untouched. -/
inductive Frame where
  | interimTranscription (text : String)
  | transcription (text : String)
  | llmFullResponseStart
  | llmText (text : String)
  | llmFullResponseEnd
  | ttsStarted
  | ttsStopped
  | ttsSpeak (text : String)
  | startInterruption
  | other (tag : Nat)
  deriving DecidableEq, Repr

/-- Payload of an `OutputTransportMessageFrame`: the `{"type": ...}` dicts
built by the observers.  A `status` message carries an optional `"text"`
field; a `transcript` message carries role, text, final flag, an optional
`"messageId"` field, and the millisecond timestamp. -/
inductive Msg where
  | status (status : String) (text : Option String)
  | transcript (role : String) (text : String) (final : Bool)
      (messageId : Option Nat) (timestamp : Nat)
  | log (text : String)
  deriving DecidableEq, Repr

/-- A single `push_frame` performed while handling one frame: either an
out-of-band notification (`OutputTransportMessageFrame`, always pushed
`DOWNSTREAM`) or the forwarding of the original frame in its original
direction. -/
inductive Output where
  | notify (m : Msg)
  | forward (f : Frame) (d : Direction)
  deriving DecidableEq, Repr

/-- Embeds `_send_status`: the message dict gets a `"text"` key only when `text` is
truthy, i.e. present and non-empty (`if text:`). -/
def sendStatus (status : String) (text : Option String) : Msg :=
  Msg.status status
    (match text with
      | some t => if t = "" then none else some t
      | none => none)

/-- Embeds `_send_transcript`: the dict gets a `"messageId"` key only when
`message_id is not None`; the timestamp is the wall clock read at the call. -/
def sendTranscript (role : String) (text : String) (final : Bool)
    (messageId : Option Nat) (now : Nat) : Msg :=
  Msg.transcript role text final messageId now

/-- Embeds `_send_log`. -/
def sendLog (text : String) : Msg :=
  Msg.log text

/-- The f-string `f"STT: \"{frame.text[:50]}{'...' if len(frame.text) > 50 else ''}\""`
(Python slices strings by code point, as `String.take` does). -/
def sttLogLine (text : String) : String :=
  "STT: \"" ++ text.take 50 ++ (if 50 < text.length then "..." else "") ++ "\""

/-- Embeds `text_preview = frame.text[:30] + "..." if len(frame.text) > 30 else frame.text`. -/
def ttsTextPreview (text : String) : String :=
  if 30 < text.length then text.take 30 ++ "..." else text

/-- State of `STTProgressProcessor`: the field `_user_message_id`. -/
structure STTProgressProcessor where
  userMessageId : Nat
  deriving DecidableEq, Repr

/-- Embeds `STTProgressProcessor.process_frame`. -/
def STTProgressProcessor.processFrame (p : STTProgressProcessor)
    (frame : Frame) (dir : Direction) (now : Nat) :
    STTProgressProcessor × List Output :=
  match frame with
  | .interimTranscription text =>
      (p, [.notify (sendStatus "listening" (some text)),
           .forward frame dir])
  | .transcription text =>
      ({ userMessageId := p.userMessageId + 1 },
       [.notify (sendStatus "stt" (some text)),
        .notify (sendLog (sttLogLine text)),
        .notify (sendTranscript "user" text true (some (p.userMessageId + 1)) now),
        .notify (sendStatus "llm" none),
        .notify (sendLog "Sending to LLM..."),
        .forward frame dir])
  | _ => (p, [.forward frame dir])

/-- State of `LLMProgressProcessor`: the fields `_assistant_text` and
`_assistant_message_id`. -/
structure LLMProgressProcessor where
  assistantText : String
  assistantMessageId : Nat
  deriving DecidableEq, Repr

/-- Embeds `LLMProgressProcessor.process_frame`.  On `LLMFullResponseEndFrame` the
`if self._assistant_text:` guard is string truthiness, i.e. non-emptiness. -/
def LLMProgressProcessor.processFrame (p : LLMProgressProcessor)
    (frame : Frame) (dir : Direction) (now : Nat) :
    LLMProgressProcessor × List Output :=
  match frame with
  | .llmFullResponseStart =>
      ({ assistantText := "", assistantMessageId := p.assistantMessageId + 1 },
       [.notify (sendLog "LLM streaming response..."),
        .forward frame dir])
  | .llmText text =>
      ({ p with assistantText := p.assistantText ++ text },
       [.notify (sendTranscript "assistant" (p.assistantText ++ text) false
          (some p.assistantMessageId) now),
        .forward frame dir])
  | .llmFullResponseEnd =>
      if p.assistantText = "" then
        (p, [.notify (sendLog "Sending to TTS..."),
             .forward frame dir])
      else
        ({ p with assistantText := "" },
         [.notify (sendTranscript "assistant" p.assistantText true
            (some p.assistantMessageId) now),
          .notify (sendLog ("LLM complete: " ++ toString p.assistantText.length ++ " chars")),
          .notify (sendLog "Sending to TTS..."),
          .forward frame dir])
  | _ => (p, [.forward frame dir])

/-- State of `TTSStatusProcessor`: the field `_is_speaking`. -/
structure TTSStatusProcessor where
  isSpeaking : Bool
  deriving DecidableEq, Repr

/-- Embeds `TTSStatusProcessor.process_frame`.  In the `TTSSpeakFrame` branch the
`status{tts}` notification is pushed only when the flag was clear, while the
`TTS: "<preview>"` log is pushed unconditionally. -/
def TTSStatusProcessor.processFrame (p : TTSStatusProcessor)
    (frame : Frame) (dir : Direction) :
    TTSStatusProcessor × List Output :=
  match frame with
  | .startInterruption =>
      if p.isSpeaking then
        (⟨false⟩,
         [.notify (Msg.status "idle" none),
          .notify (Msg.log "Interrupted by user"),
          .forward frame dir])
      else (p, [.forward frame dir])
  | .ttsStarted =>
      if p.isSpeaking then (p, [.forward frame dir])
      else
        (⟨true⟩,
         [.notify (Msg.status "tts" none),
          .notify (Msg.log "TTS speaking..."),
          .forward frame dir])
  | .ttsStopped =>
      if p.isSpeaking then
        (⟨false⟩,
         [.notify (Msg.status "idle" none),
          .notify (Msg.log "Ready"),
          .forward frame dir])
      else (p, [.forward frame dir])
  | .ttsSpeak text =>
      (⟨true⟩,
       (if p.isSpeaking then [] else [Output.notify (Msg.status "tts" none)]) ++
       [.notify (Msg.log ("TTS: \"" ++ ttsTextPreview text ++ "\"")),
        .forward frame dir])
  | _ => (p, [.forward frame dir])

/-- One frame arriving at an observer: the frame, the direction it travels,
and the wall clock (ms) at which it is handled. -/
structure Input where
  frame : Frame
  dir : Direction
  now : Nat
  deriving DecidableEq, Repr

/-- Run the STT observer over a sequence of inputs, concatenating all pushes. -/
def sttRun (p : STTProgressProcessor) : List Input → STTProgressProcessor × List Output
  | [] => (p, [])
  | i :: is =>
      let s := p.processFrame i.frame i.dir i.now
      let r := sttRun s.1 is
      (r.1, s.2 ++ r.2)

/-- Run the LLM observer over a sequence of inputs. -/
def llmRun (p : LLMProgressProcessor) : List Input → LLMProgressProcessor × List Output
  | [] => (p, [])
  | i :: is =>
      let s := p.processFrame i.frame i.dir i.now
      let r := llmRun s.1 is
      (r.1, s.2 ++ r.2)

/-- Run the TTS observer over a sequence of inputs. -/
def ttsRun (p : TTSStatusProcessor) : List Input → TTSStatusProcessor × List Output
  | [] => (p, [])
  | i :: is =>
      let s := p.processFrame i.frame i.dir
      let r := ttsRun s.1 is
      (r.1, s.2 ++ r.2)

/-- Extract a forwarding push. -/
def Output.forwardedEvent : Output → Option (Frame × Direction)
  | .forward f d => some (f, d)
  | .notify _ => none

/-- The primary-path events forwarded in a push sequence, in order. -/
def forwards (out : List Output) : List (Frame × Direction) :=
  out.filterMap Output.forwardedEvent

/-- Extract a notification push. -/
def Output.notifyMsg : Output → Option Msg
  | .notify m => some m
  | .forward _ _ => none

/-- The notifications emitted in a push sequence, in order. -/
def notifications (out : List Output) : List Msg :=
  out.filterMap Output.notifyMsg

/-! ## Forwarding lemmas -/

theorem forwards_append (a b : List Output) :
    forwards (a ++ b) = forwards a ++ forwards b := by
  simp [forwards, List.filterMap_append]

theorem notifications_append (a b : List Output) :
    notifications (a ++ b) = notifications a ++ notifications b := by
  simp [notifications, List.filterMap_append]

theorem stt_step_forwards (p : STTProgressProcessor) (f : Frame)
    (d : Direction) (now : Nat) :
    forwards (p.processFrame f d now).2 = [(f, d)] := by
  cases f <;>
    simp [STTProgressProcessor.processFrame, forwards, Output.forwardedEvent]

theorem llm_step_forwards (p : LLMProgressProcessor) (f : Frame)
    (d : Direction) (now : Nat) :
    forwards (p.processFrame f d now).2 = [(f, d)] := by
  cases f <;>
    simp [LLMProgressProcessor.processFrame, forwards, Output.forwardedEvent] <;>
    split <;>
    simp [forwards, Output.forwardedEvent]

theorem tts_step_forwards (p : TTSStatusProcessor) (f : Frame)
    (d : Direction) :
    forwards (p.processFrame f d).2 = [(f, d)] := by
  cases f <;>
    simp [TTSStatusProcessor.processFrame, forwards, Output.forwardedEvent] <;>
    split <;>
    simp [forwards, Output.forwardedEvent]

theorem stt_run_forwards (is : List Input) (p : STTProgressProcessor) :
    forwards (sttRun p is).2 = is.map (fun i => (i.frame, i.dir)) := by
  induction is generalizing p with
  | nil => simp [sttRun, forwards]
  | cons i is ih =>
      simp [sttRun, forwards_append, stt_step_forwards, ih]

theorem llm_run_forwards (is : List Input) (p : LLMProgressProcessor) :
    forwards (llmRun p is).2 = is.map (fun i => (i.frame, i.dir)) := by
  induction is generalizing p with
  | nil => simp [llmRun, forwards]
  | cons i is ih =>
      simp [llmRun, forwards_append, llm_step_forwards, ih]

theorem tts_run_forwards (is : List Input) (p : TTSStatusProcessor) :
    forwards (ttsRun p is).2 = is.map (fun i => (i.frame, i.dir)) := by
  induction is generalizing p with
  | nil => simp [ttsRun, forwards]
  | cons i is ih =>
      simp [ttsRun, forwards_append, tts_step_forwards, ih]

/-- C1: Forwarding invariant — for each of the three observers and every
input event sequence, the sequence of primary-path events forwarded
(frame and direction, in order) equals the input sequence exactly,
independent of the notifications interleaved with it. -/
theorem forwarding_invariant :
    (∀ (p : STTProgressProcessor) (is : List Input),
        forwards (sttRun p is).2 = is.map (fun i => (i.frame, i.dir))) ∧
    (∀ (p : LLMProgressProcessor) (is : List Input),
        forwards (llmRun p is).2 = is.map (fun i => (i.frame, i.dir))) ∧
    (∀ (p : TTSStatusProcessor) (is : List Input),
        forwards (ttsRun p is).2 = is.map (fun i => (i.frame, i.dir))) :=
  ⟨fun p is => stt_run_forwards is p,
   fun p is => llm_run_forwards is p,
   fun p is => tts_run_forwards is p⟩

/-- C2: On `FinalTranscript{text}` (`TranscriptionFrame`) the user message
counter increases by exactly 1 and exactly five notifications are emitted, in
order: `status{stt, text}` (text field omitted when empty), the truncated
`STT:` log, `transcript{role=user, text, final=true, messageId=<new counter>}`,
`status{llm}`, and `log "Sending to LLM..."` — so the finalized user
transcript precedes the `llm` status. -/
theorem final_transcript_contract (p : STTProgressProcessor) (text : String)
    (d : Direction) (now : Nat) :
    (p.processFrame (.transcription text) d now).1.userMessageId
        = p.userMessageId + 1 ∧
    notifications (p.processFrame (.transcription text) d now).2 =
      [Msg.status "stt" (if text = "" then none else some text),
       Msg.log ("STT: \"" ++ text.take 50 ++
         (if 50 < text.length then "..." else "") ++ "\""),
       Msg.transcript "user" text true (some (p.userMessageId + 1)) now,
       Msg.status "llm" none,
       Msg.log "Sending to LLM..."] :=
  ⟨rfl, rfl⟩

/-- C3: The speaking flag of `TTSStatusProcessor` satisfies all seven rows of
the §4.3 transition table, and an `InterruptionSignaled` while speaking
followed by a late `PlaybackStopped` produces exactly one idle transition
(the second event emits nothing). -/
theorem speech_status_transition_table :
    (∀ (d : Direction),
       TTSStatusProcessor.processFrame ⟨false⟩ .ttsStarted d =
         (⟨true⟩, [.notify (Msg.status "tts" none),
                   .notify (Msg.log "TTS speaking..."),
                   .forward .ttsStarted d])) ∧
    (∀ (text : String) (d : Direction),
       TTSStatusProcessor.processFrame ⟨false⟩ (.ttsSpeak text) d =
         (⟨true⟩, [.notify (Msg.status "tts" none),
                   .notify (Msg.log ("TTS: \"" ++ ttsTextPreview text ++ "\"")),
                   .forward (.ttsSpeak text) d])) ∧
    (∀ (text : String) (d : Direction),
       TTSStatusProcessor.processFrame ⟨true⟩ (.ttsSpeak text) d =
         (⟨true⟩, [.notify (Msg.log ("TTS: \"" ++ ttsTextPreview text ++ "\"")),
                   .forward (.ttsSpeak text) d])) ∧
    (∀ (d : Direction),
       TTSStatusProcessor.processFrame ⟨true⟩ .ttsStopped d =
         (⟨false⟩, [.notify (Msg.status "idle" none),
                    .notify (Msg.log "Ready"),
                    .forward .ttsStopped d])) ∧
    (∀ (d : Direction),
       TTSStatusProcessor.processFrame ⟨true⟩ .startInterruption d =
         (⟨false⟩, [.notify (Msg.status "idle" none),
                    .notify (Msg.log "Interrupted by user"),
                    .forward .startInterruption d])) ∧
    (∀ (d : Direction),
       TTSStatusProcessor.processFrame ⟨false⟩ .ttsStopped d =
           (⟨false⟩, [.forward .ttsStopped d]) ∧
       TTSStatusProcessor.processFrame ⟨false⟩ .startInterruption d =
           (⟨false⟩, [.forward .startInterruption d])) ∧
    (∀ (d : Direction),
       TTSStatusProcessor.processFrame ⟨true⟩ .ttsStarted d =
         (⟨true⟩, [.forward .ttsStarted d])) ∧
    (∀ (d : Direction) (t1 t2 : Nat),
       notifications (ttsRun ⟨true⟩
           [⟨.startInterruption, d, t1⟩, ⟨.ttsStopped, d, t2⟩]).2 =
         [Msg.status "idle" none, Msg.log "Interrupted by user"]) :=
  ⟨fun _ => rfl, fun _ _ => rfl, fun _ _ => rfl, fun _ => rfl, fun _ => rfl,
   fun _ => ⟨rfl, rfl⟩, fun _ => rfl, fun _ _ _ => rfl⟩

/-- C4: On the stream `[GenerationStarted, GenerationTextChunk "A",
GenerationTextChunk "B", GenerationEnded]` the Response Observer emits
transcripts `"A"`, `"AB"` (both non-final) and a final `"AB"`, all with the
same messageId, followed by the char-count log and `"Sending to TTS..."`;
and every `GenerationTextChunk` notification carries the full accumulated
text so far, not the delta. -/
theorem response_stream_snapshot :
    (∀ (p : LLMProgressProcessor) (d : Direction) (t1 t2 t3 t4 : Nat),
       notifications (llmRun p
           [⟨.llmFullResponseStart, d, t1⟩, ⟨.llmText "A", d, t2⟩,
            ⟨.llmText "B", d, t3⟩, ⟨.llmFullResponseEnd, d, t4⟩]).2 =
         [Msg.log "LLM streaming response...",
          Msg.transcript "assistant" "A" false (some (p.assistantMessageId + 1)) t2,
          Msg.transcript "assistant" "AB" false (some (p.assistantMessageId + 1)) t3,
          Msg.transcript "assistant" "AB" true (some (p.assistantMessageId + 1)) t4,
          Msg.log "LLM complete: 2 chars",
          Msg.log "Sending to TTS..."]) ∧
    (∀ (p : LLMProgressProcessor) (text : String) (d : Direction) (now : Nat),
       notifications (p.processFrame (.llmText text) d now).2 =
         [Msg.transcript "assistant" (p.assistantText ++ text) false
            (some p.assistantMessageId) now]) := by
  refine ⟨fun p d t1 t2 t3 t4 => ?_, fun p text d now => rfl⟩
  simp [llmRun, LLMProgressProcessor.processFrame, notifications,
    Output.notifyMsg, sendLog, sendTranscript]
  rfl

/-- C5: On every `GenerationStarted` the Response Observer resets the
accumulated text to empty, increments the assistant counter by 1 and emits
`log "LLM streaming response..."`; after two consecutive `GenerationStarted`
events with no intervening `GenerationEnded`, the first chunk notification
carries only the new chunk's text — no prior text leaks. -/
theorem generation_start_resets :
    (∀ (p : LLMProgressProcessor) (d : Direction) (now : Nat),
       p.processFrame .llmFullResponseStart d now =
         ({ assistantText := "", assistantMessageId := p.assistantMessageId + 1 },
          [.notify (Msg.log "LLM streaming response..."),
           .forward .llmFullResponseStart d])) ∧
    (∀ (p : LLMProgressProcessor) (c : String) (d : Direction) (t1 t2 t3 : Nat),
       notifications (llmRun p
           [⟨.llmFullResponseStart, d, t1⟩, ⟨.llmFullResponseStart, d, t2⟩,
            ⟨.llmText c, d, t3⟩]).2 =
         [Msg.log "LLM streaming response...",
          Msg.log "LLM streaming response...",
          Msg.transcript "assistant" c false (some (p.assistantMessageId + 2)) t3]) :=
  ⟨fun _ _ _ => rfl, fun _ _ _ _ _ _ => rfl⟩

/-- C6: On `GenerationEnded`: with non-empty accumulated text, the observer
emits the final assistant transcript with the current counter, then the
`LLM complete: <n> chars` log, resets the text, and emits
`"Sending to TTS..."`; with empty accumulated text it emits only
`"Sending to TTS..."` and leaves the state unchanged. -/
theorem generation_end_flush (p : LLMProgressProcessor) (d : Direction) (now : Nat) :
    (p.assistantText = "" →
       p.processFrame .llmFullResponseEnd d now =
         (p, [.notify (Msg.log "Sending to TTS..."),
              .forward .llmFullResponseEnd d])) ∧
    (p.assistantText ≠ "" →
       p.processFrame .llmFullResponseEnd d now =
         ({ p with assistantText := "" },
          [.notify (Msg.transcript "assistant" p.assistantText true
             (some p.assistantMessageId) now),
           .notify (Msg.log ("LLM complete: " ++ toString p.assistantText.length ++ " chars")),
           .notify (Msg.log "Sending to TTS..."),
           .forward .llmFullResponseEnd d])) := by
  constructor
  · intro h
    simp [LLMProgressProcessor.processFrame, h, sendLog]
  · intro h
    simp [LLMProgressProcessor.processFrame, h, sendLog, sendTranscript]

/-- Witness for C6: both branches at concrete states. -/
theorem generation_end_flush_witness :
    LLMProgressProcessor.processFrame ⟨"", 3⟩ .llmFullResponseEnd .downstream 7 =
      (⟨"", 3⟩, [.notify (Msg.log "Sending to TTS..."),
                 .forward .llmFullResponseEnd .downstream]) ∧
    LLMProgressProcessor.processFrame ⟨"hi", 3⟩ .llmFullResponseEnd .downstream 7 =
      (⟨"", 3⟩, [.notify (Msg.transcript "assistant" "hi" true (some 3) 7),
                 .notify (Msg.log "LLM complete: 2 chars"),
                 .notify (Msg.log "Sending to TTS..."),
                 .forward .llmFullResponseEnd .downstream]) :=
  ⟨(generation_end_flush ⟨"", 3⟩ .downstream 7).1 rfl,
   (generation_end_flush ⟨"hi", 3⟩ .downstream 7).2 (by decide)⟩

/-- Python slicing `s[:n]` returns the whole string when it has at most `n`
characters. -/
theorem string_take_all (s : String) (n : Nat) (h : s.length ≤ n) :
    s.take n = s := by
  have h2 : s.data.length ≤ n := h
  rw [String.take_eq]
  cases s with
  | mk d => exact congrArg String.mk (List.take_of_length_le h2)

/-- C9: Truncation — a `FinalTranscript` longer than 50 characters yields an
`STT:` log holding exactly the first 50 characters plus an ellipsis; a
`PlaybackChunkRequested` longer than 30 characters yields a `TTS:` log
holding the first 30 characters plus an ellipsis; text at or under the limit
appears unmodified with nothing appended.  The respective handlers emit
exactly these log lines. -/
theorem truncation_contract (text : String) :
    (50 < text.length → sttLogLine text = "STT: \"" ++ text.take 50 ++ "...\"") ∧
    (text.length ≤ 50 → sttLogLine text = "STT: \"" ++ text ++ "\"") ∧
    (30 < text.length → ttsTextPreview text = text.take 30 ++ "...") ∧
    (text.length ≤ 30 → ttsTextPreview text = text) ∧
    (∀ (p : STTProgressProcessor) (d : Direction) (now : Nat),
       Msg.log (sttLogLine text) ∈
         notifications (p.processFrame (.transcription text) d now).2) ∧
    (∀ (p : TTSStatusProcessor) (d : Direction),
       Msg.log ("TTS: \"" ++ ttsTextPreview text ++ "\"") ∈
         notifications (p.processFrame (.ttsSpeak text) d).2) := by
  refine ⟨fun h => ?_, fun h => ?_, fun h => ?_, fun h => ?_,
          fun p d now => ?_, fun p d => ?_⟩
  · simp [sttLogLine, h, String.append_assoc]
  · have h2 : ¬ 50 < text.length := by omega
    simp [sttLogLine, h2, string_take_all text 50 h]
  · simp [ttsTextPreview, h]
  · have h2 : ¬ 30 < text.length := by omega
    simp [ttsTextPreview, h2]
  · simp [STTProgressProcessor.processFrame, notifications, Output.notifyMsg,
      sendLog, sendStatus, sendTranscript]
  · cases hb : p.isSpeaking <;>
      simp [TTSStatusProcessor.processFrame, hb, notifications, Output.notifyMsg]

/-- An 80-`a` string, the truncation example of the spec. -/
def sampleText80 : String :=
  "aaaaaaaaaaaaaaaaaaaaaaaaaaaaaaaaaaaaaaaaaaaaaaaaaaaaaaaaaaaaaaaaaaaaaaaaaaaaaaaa"

/-- The first 50 characters of `sampleText80`. -/
def sampleText50 : String :=
  "aaaaaaaaaaaaaaaaaaaaaaaaaaaaaaaaaaaaaaaaaaaaaaaaaa"

/-- A 40-`b` string, the TTS truncation example of the spec. -/
def sampleText40 : String :=
  "bbbbbbbbbbbbbbbbbbbbbbbbbbbbbbbbbbbbbbbb"

/-- The first 30 characters of `sampleText40`. -/
def sampleText30 : String :=
  "bbbbbbbbbbbbbbbbbbbbbbbbbbbbbb"

set_option maxRecDepth 8000 in
/-- Witness for C9: the spec's concrete examples — an 80-character
transcript truncates to its first 50 characters plus ellipsis, a
40-character TTS chunk to its first 30 plus ellipsis, and short texts pass
through untouched. -/
theorem truncation_contract_witness :
    sttLogLine sampleText80 = "STT: \"" ++ (sampleText50 ++ "...\"") ∧
    sttLogLine "hello" = "STT: \"" ++ "hello" ++ "\"" ∧
    ttsTextPreview sampleText40 = sampleText30 ++ "..." ∧
    ttsTextPreview "hi there" = "hi there" := by
  refine ⟨?_, ?_, ?_, ?_⟩
  · have h := (truncation_contract sampleText80).1 (by decide)
    rw [h]
    have : sampleText80.take 50 = sampleText50 := by decide
    rw [this, String.append_assoc]
  · exact (truncation_contract "hello").2.1 (by decide)
  · have h := (truncation_contract sampleText40).2.2.1 (by decide)
    rw [h]
    have : sampleText40.take 30 = sampleText30 := by decide
    rw [this]
  · exact (truncation_contract "hi there").2.2.2.1 (by decide)

/-- C10: A status notification omits its text field exactly when the
accompanying text is empty (`if text:` truthiness in `_send_status`); in
particular a `PartialTranscript` with empty text still produces exactly one
`status "listening"` notification, carrying no text field. -/
theorem empty_status_text_omitted :
    (∀ (st : String), sendStatus st (some "") = Msg.status st none) ∧
    (∀ (st t : String), t ≠ "" → sendStatus st (some t) = Msg.status st (some t)) ∧
    (∀ (p : STTProgressProcessor) (d : Direction) (now : Nat),
       notifications (p.processFrame (.interimTranscription "") d now).2 =
         [Msg.status "listening" none]) := by
  refine ⟨fun st => rfl, fun st t h => by simp [sendStatus, h], fun p d now => rfl⟩

/-- Witness for C10: a non-empty text is carried in the status message. -/
theorem empty_status_text_omitted_witness :
    sendStatus "listening" (some "hi") = Msg.status "listening" (some "hi") :=
  empty_status_text_omitted.2.1 "listening" "hi" (by decide)

/-! ## Message identifiers -/

/-- The messageId of a finalized user transcript notification. -/
def userIdOf : Msg → Option Nat
  | .transcript "user" _ true (some id) _ => some id
  | _ => none

/-- messageIds of the finalized user transcript notifications of a push
sequence, in emission order. -/
def userTranscriptIds (out : List Output) : List Nat :=
  (notifications out).filterMap userIdOf

/-- The messageId of an assistant transcript notification. -/
def assistantIdOf : Msg → Option Nat
  | .transcript "assistant" _ _ (some id) _ => some id
  | _ => none

/-- messageIds of the assistant transcript notifications of a push sequence,
in emission order. -/
def assistantTranscriptIds (out : List Output) : List Nat :=
  (notifications out).filterMap assistantIdOf

/-- Does this input carry a `FinalTranscript` (`TranscriptionFrame`)? -/
def Input.isFinalUserUtterance (i : Input) : Bool :=
  match i.frame with
  | .transcription _ => true
  | _ => false

/-- Does this input carry a `GenerationStarted` (`LLMFullResponseStartFrame`)? -/
def Input.isGenerationStart (i : Input) : Bool :=
  match i.frame with
  | .llmFullResponseStart => true
  | _ => false

theorem userTranscriptIds_append (a b : List Output) :
    userTranscriptIds (a ++ b) = userTranscriptIds a ++ userTranscriptIds b := by
  simp [userTranscriptIds, notifications_append, List.filterMap_append]

theorem assistantTranscriptIds_append (a b : List Output) :
    assistantTranscriptIds (a ++ b) =
      assistantTranscriptIds a ++ assistantTranscriptIds b := by
  simp [assistantTranscriptIds, notifications_append, List.filterMap_append]

theorem stt_step_userIds (p : STTProgressProcessor) (f : Frame)
    (d : Direction) (now : Nat) :
    userTranscriptIds (p.processFrame f d now).2 =
      (match f with
        | .transcription _ => [p.userMessageId + 1]
        | _ => []) := by
  cases f <;> rfl

theorem stt_step_counter (p : STTProgressProcessor) (f : Frame)
    (d : Direction) (now : Nat) :
    (p.processFrame f d now).1.userMessageId =
      p.userMessageId +
        (match f with | .transcription _ => 1 | _ => 0) := by
  cases f <;> rfl

theorem stt_run_counter (is : List Input) (p : STTProgressProcessor) :
    (sttRun p is).1.userMessageId =
      p.userMessageId + is.countP Input.isFinalUserUtterance := by
  induction is generalizing p with
  | nil => simp [sttRun]
  | cons i is ih =>
      rw [sttRun, ih, stt_step_counter, List.countP_cons]
      cases hf : i.frame <;>
        simp [Input.isFinalUserUtterance, hf] <;> omega

theorem stt_run_userIds (is : List Input) (p : STTProgressProcessor) :
    userTranscriptIds (sttRun p is).2 =
      List.range' (p.userMessageId + 1) (is.countP Input.isFinalUserUtterance) := by
  induction is generalizing p with
  | nil => simp [sttRun, userTranscriptIds, notifications]
  | cons i is ih =>
      rw [sttRun]
      rw [userTranscriptIds_append, ih, stt_step_userIds, stt_step_counter,
        List.countP_cons]
      cases hf : i.frame <;>
        simp [Input.isFinalUserUtterance, hf, List.range'_succ]

theorem llm_step_counter (p : LLMProgressProcessor) (f : Frame)
    (d : Direction) (now : Nat) :
    (p.processFrame f d now).1.assistantMessageId =
      p.assistantMessageId +
        (match f with | .llmFullResponseStart => 1 | _ => 0) := by
  cases f <;> simp [LLMProgressProcessor.processFrame] <;> split <;> rfl

theorem llm_run_counter (is : List Input) (p : LLMProgressProcessor) :
    (llmRun p is).1.assistantMessageId =
      p.assistantMessageId + is.countP Input.isGenerationStart := by
  induction is generalizing p with
  | nil => simp [llmRun]
  | cons i is ih =>
      rw [llmRun, ih, llm_step_counter, List.countP_cons]
      cases hf : i.frame <;>
        simp [Input.isGenerationStart, hf] <;> omega

theorem llm_step_ids (p : LLMProgressProcessor) (f : Frame)
    (d : Direction) (now : Nat) :
    assistantTranscriptIds (p.processFrame f d now).2 = [] ∨
    assistantTranscriptIds (p.processFrame f d now).2 =
      [(p.processFrame f d now).1.assistantMessageId] := by
  cases f <;>
    simp [LLMProgressProcessor.processFrame, assistantTranscriptIds,
      notifications, Output.notifyMsg, sendLog, sendTranscript, sendStatus,
      assistantIdOf, userIdOf]
  split <;>
    simp [assistantTranscriptIds, notifications, Output.notifyMsg, sendLog,
      sendTranscript, assistantIdOf]

theorem llm_run_id_lower_bound (is : List Input) (p : LLMProgressProcessor) :
    ∀ id ∈ assistantTranscriptIds (llmRun p is).2, p.assistantMessageId ≤ id := by
  induction is generalizing p with
  | nil => simp [llmRun, assistantTranscriptIds, notifications]
  | cons i is ih =>
      intro id hid
      rw [llmRun, assistantTranscriptIds_append, List.mem_append] at hid
      have hstep : p.assistantMessageId ≤
          (p.processFrame i.frame i.dir i.now).1.assistantMessageId := by
        rw [llm_step_counter]; omega
      rcases hid with hid | hid
      · rcases llm_step_ids p i.frame i.dir i.now with h0 | h1
        · simp [h0] at hid
        · rw [h1] at hid
          simp at hid
          omega
      · exact le_trans hstep (ih (p.processFrame i.frame i.dir i.now).1 id hid)

theorem llm_run_ids_chain (is : List Input) (p : LLMProgressProcessor) :
    List.Chain' (· ≤ ·) (assistantTranscriptIds (llmRun p is).2) := by
  induction is generalizing p with
  | nil => simp [llmRun, assistantTranscriptIds, notifications]
  | cons i is ih =>
      rw [llmRun, assistantTranscriptIds_append]
      rcases llm_step_ids p i.frame i.dir i.now with h0 | h1
      · simpa [h0] using ih (p.processFrame i.frame i.dir i.now).1
      · rw [h1]
        rw [List.singleton_append, List.chain'_cons']
        refine ⟨fun b hb => ?_, ih (p.processFrame i.frame i.dir i.now).1⟩
        exact llm_run_id_lower_bound is _ b (List.mem_of_mem_head? hb)

/-- C8: Message identifiers are monotonically increasing and never reused
within a session: over any event sequence the finalized user transcript
notifications carry messageIds `n+1, n+2, ...` (one increment per
`FinalTranscript`), hence strictly increasing; the assistant counter is
incremented exactly once per `GenerationStarted`; every assistant transcript
notification emitted while handling a frame carries the observer's current
counter (so all notifications of one turn share one messageId, strictly
greater than the previous turn's); and the assistant messageId sequence is
monotone. -/
theorem message_ids_monotone :
    (∀ (p : STTProgressProcessor) (is : List Input),
       userTranscriptIds (sttRun p is).2 =
         List.range' (p.userMessageId + 1) (is.countP Input.isFinalUserUtterance)) ∧
    (∀ (p : STTProgressProcessor) (is : List Input),
       List.Chain' (· < ·) (userTranscriptIds (sttRun p is).2)) ∧
    (∀ (p : STTProgressProcessor) (is : List Input),
       (sttRun p is).1.userMessageId =
         p.userMessageId + is.countP Input.isFinalUserUtterance) ∧
    (∀ (p : LLMProgressProcessor) (is : List Input),
       (llmRun p is).1.assistantMessageId =
         p.assistantMessageId + is.countP Input.isGenerationStart) ∧
    (∀ (p : LLMProgressProcessor) (f : Frame) (d : Direction) (now : Nat),
       ∀ id ∈ assistantTranscriptIds (p.processFrame f d now).2,
         id = (p.processFrame f d now).1.assistantMessageId) ∧
    (∀ (p : LLMProgressProcessor) (is : List Input),
       List.Chain' (· ≤ ·) (assistantTranscriptIds (llmRun p is).2)) := by
  refine ⟨fun p is => stt_run_userIds is p,
          fun p is => ?_,
          fun p is => stt_run_counter is p,
          fun p is => llm_run_counter is p,
          fun p f d now id hid => ?_,
          fun p is => llm_run_ids_chain is p⟩
  · rw [stt_run_userIds]
    exact (List.pairwise_lt_range' _ _).chain'
  · rcases llm_step_ids p f d now with h0 | h1
    · simp [h0] at hid
    · rw [h1] at hid
      simpa using hid

/-- Witness for C8: two finalized user utterances from a fresh session get
messageIds 1 then 2, and a chunk handled at assistant counter 5 emits a
transcript carrying messageId 5. -/
theorem message_ids_monotone_witness :
    userTranscriptIds (sttRun ⟨0⟩
        [⟨.transcription "a", .downstream, 1⟩,
         ⟨.transcription "b", .downstream, 2⟩]).2 = [1, 2] ∧
    (5 : Nat) =
      ((⟨"x", 5⟩ : LLMProgressProcessor).processFrame
          (.llmText "y") .downstream 0).1.assistantMessageId := by
  constructor
  · have h := message_ids_monotone.1 ⟨0⟩
      [⟨.transcription "a", .downstream, 1⟩, ⟨.transcription "b", .downstream, 2⟩]
    simpa using h
  · exact message_ids_monotone.2.2.2.2.1 ⟨"x", 5⟩ (.llmText "y") .downstream 0 5
      (by decide)

/-! ## Behavior when a notification push raises

`process_frame` contains no `try`/`except`: each notification push is an
awaited call, so an exception raised by one propagates out of the handler,
skipping every later statement — including the final forwarding
`push_frame`.  We model a sink that raises on one chosen notification push
of the current event's handling (`failAt` is its 0-based index); state
mutations executed before the failing push persist, as they do in Python. -/

/-- Attempt the notification pushes `ms` in order, the first push having
index `idx`.  The push whose index is `failAt` raises: it produces nothing
and no later push is attempted.  Returns the successful pushes and whether
an exception escaped. -/
def emitFrom (failAt : Option Nat) (idx : Nat) : List Msg → List Output × Bool
  | [] => ([], false)
  | m :: ms =>
      if failAt = some idx then ([], true)
      else
        let r := emitFrom failAt (idx + 1) ms
        (Output.notify m :: r.1, r.2)

/-- A handler branch whose state updates all precede its notification
pushes: perform the pushes, then forward the frame only if none raised. -/
def emitStep {σ : Type} (failAt : Option Nat) (ms : List Msg) (s : σ)
    (f : Frame) (d : Direction) : σ × List Output × Bool :=
  let e := emitFrom failAt 0 ms
  if e.2 then (s, e.1, true) else (s, e.1 ++ [Output.forward f d], false)

theorem emitFrom_forwards (failAt : Option Nat) (i : Nat) (ms : List Msg) :
    forwards (emitFrom failAt i ms).1 = [] := by
  induction ms generalizing i with
  | nil => rfl
  | cons m ms ih =>
      rw [emitFrom]
      split
      · rfl
      · simpa [forwards, List.filterMap_cons, Output.forwardedEvent] using ih (i + 1)

theorem emitFrom_ok (failAt : Option Nat) (i : Nat) (ms : List Msg)
    (h : (emitFrom failAt i ms).2 = false) :
    (emitFrom failAt i ms).1 = ms.map Output.notify := by
  induction ms generalizing i with
  | nil => rfl
  | cons m ms ih =>
      rw [emitFrom] at h ⊢
      split at h
      · simp at h
      · rename_i hc
        simp only [hc, if_false]
        simp only [List.map_cons, List.cons.injEq, true_and]
        exact ih (i + 1) (by simpa using h)

theorem emitStep_spec {σ : Type} (failAt : Option Nat) (ms : List Msg)
    (s : σ) (f : Frame) (d : Direction) :
    ((emitStep failAt ms s f d).2.2 = true →
       forwards (emitStep failAt ms s f d).2.1 = []) ∧
    ((emitStep failAt ms s f d).2.2 = false →
       emitStep failAt ms s f d =
         (s, ms.map Output.notify ++ [Output.forward f d], false)) := by
  unfold emitStep
  by_cases hc : (emitFrom failAt 0 ms).2 = true
  · constructor
    · intro _
      simp [hc, emitFrom_forwards]
    · intro hr
      simp [hc] at hr
  · have hc2 : (emitFrom failAt 0 ms).2 = false := by simpa using hc
    constructor
    · intro hr
      simp [hc2] at hr
    · intro _
      simp [hc2, emitFrom_ok failAt 0 ms hc2]

/-- Embeds `STTProgressProcessor.process_frame` under a sink raising on the
notification push of index `failAt`: the counter increment precedes all
pushes, so it persists even when a push raises. -/
def STTProgressProcessor.processFrameExc (p : STTProgressProcessor)
    (failAt : Option Nat) (frame : Frame) (dir : Direction) (now : Nat) :
    STTProgressProcessor × List Output × Bool :=
  match frame with
  | .interimTranscription text =>
      emitStep failAt [sendStatus "listening" (some text)] p frame dir
  | .transcription text =>
      emitStep failAt
        [sendStatus "stt" (some text),
         sendLog (sttLogLine text),
         sendTranscript "user" text true (some (p.userMessageId + 1)) now,
         sendStatus "llm" none,
         sendLog "Sending to LLM..."]
        { userMessageId := p.userMessageId + 1 } frame dir
  | _ => (p, [.forward frame dir], false)

/-- Embeds `LLMProgressProcessor.process_frame` under a raising sink.  In the
`LLMFullResponseEndFrame` branch with non-empty text, the
`self._assistant_text = ""` reset sits between the char-count log push and
the `"Sending to TTS..."` push, so a raise in the first two pushes leaves
the accumulated text intact while a raise in the third happens after the
reset. -/
def LLMProgressProcessor.processFrameExc (p : LLMProgressProcessor)
    (failAt : Option Nat) (frame : Frame) (dir : Direction) (now : Nat) :
    LLMProgressProcessor × List Output × Bool :=
  match frame with
  | .llmFullResponseStart =>
      emitStep failAt [sendLog "LLM streaming response..."]
        { assistantText := "", assistantMessageId := p.assistantMessageId + 1 }
        frame dir
  | .llmText text =>
      emitStep failAt
        [sendTranscript "assistant" (p.assistantText ++ text) false
          (some p.assistantMessageId) now]
        { p with assistantText := p.assistantText ++ text } frame dir
  | .llmFullResponseEnd =>
      if p.assistantText = "" then
        emitStep failAt [sendLog "Sending to TTS..."] p frame dir
      else
        let e1 := emitFrom failAt 0
          [sendTranscript "assistant" p.assistantText true
             (some p.assistantMessageId) now,
           sendLog ("LLM complete: " ++ toString p.assistantText.length ++ " chars")]
        if e1.2 then (p, e1.1, true)
        else
          let e2 := emitFrom failAt 2 [sendLog "Sending to TTS..."]
          if e2.2 then ({ p with assistantText := "" }, e1.1 ++ e2.1, true)
          else ({ p with assistantText := "" },
                e1.1 ++ e2.1 ++ [.forward frame dir], false)
  | _ => (p, [.forward frame dir], false)

/-- Embeds `TTSStatusProcessor.process_frame` under a raising sink; in every branch
the flag update precedes the pushes. -/
def TTSStatusProcessor.processFrameExc (p : TTSStatusProcessor)
    (failAt : Option Nat) (frame : Frame) (dir : Direction) :
    TTSStatusProcessor × List Output × Bool :=
  match frame with
  | .startInterruption =>
      if p.isSpeaking then
        emitStep failAt [Msg.status "idle" none, Msg.log "Interrupted by user"]
          ⟨false⟩ frame dir
      else (p, [.forward frame dir], false)
  | .ttsStarted =>
      if p.isSpeaking then (p, [.forward frame dir], false)
      else
        emitStep failAt [Msg.status "tts" none, Msg.log "TTS speaking..."]
          ⟨true⟩ frame dir
  | .ttsStopped =>
      if p.isSpeaking then
        emitStep failAt [Msg.status "idle" none, Msg.log "Ready"] ⟨false⟩ frame dir
      else (p, [.forward frame dir], false)
  | .ttsSpeak text =>
      emitStep failAt
        ((if p.isSpeaking then [] else [Msg.status "tts" none]) ++
         [Msg.log ("TTS: \"" ++ ttsTextPreview text ++ "\"")])
        ⟨true⟩ frame dir
  | _ => (p, [.forward frame dir], false)

theorem emitStep_ok_pair {σ : Type} (failAt : Option Nat) (ms : List Msg)
    (s : σ) (f : Frame) (d : Direction)
    (h : (emitStep failAt ms s f d).2.2 = false) :
    ((emitStep failAt ms s f d).1, (emitStep failAt ms s f d).2.1) =
      (s, ms.map Output.notify ++ [Output.forward f d]) := by
  have h2 := (emitStep_spec failAt ms s f d).2 h
  rw [h2]

theorem stt_exc_spec (p : STTProgressProcessor) (failAt : Option Nat)
    (f : Frame) (d : Direction) (now : Nat) :
    ((p.processFrameExc failAt f d now).2.2 = true →
       forwards (p.processFrameExc failAt f d now).2.1 = []) ∧
    ((p.processFrameExc failAt f d now).2.2 = false →
       ((p.processFrameExc failAt f d now).1,
        (p.processFrameExc failAt f d now).2.1) = p.processFrame f d now) := by
  cases f
  case interimTranscription text =>
    exact ⟨(emitStep_spec _ _ _ _ _).1, fun h => emitStep_ok_pair _ _ _ _ _ h⟩
  case transcription text =>
    exact ⟨(emitStep_spec _ _ _ _ _).1, fun h => emitStep_ok_pair _ _ _ _ _ h⟩
  all_goals exact ⟨(fun h => nomatch h), fun _ => rfl⟩

theorem tts_exc_spec (p : TTSStatusProcessor) (failAt : Option Nat)
    (f : Frame) (d : Direction) :
    ((p.processFrameExc failAt f d).2.2 = true →
       forwards (p.processFrameExc failAt f d).2.1 = []) ∧
    ((p.processFrameExc failAt f d).2.2 = false →
       ((p.processFrameExc failAt f d).1,
        (p.processFrameExc failAt f d).2.1) = p.processFrame f d) := by
  rcases p with ⟨b⟩
  cases b <;> cases f <;>
    first
      | exact ⟨(fun h => nomatch h), fun _ => rfl⟩
      | exact ⟨(emitStep_spec _ _ _ _ _).1,
               fun h => (emitStep_ok_pair _ _ _ _ _ h).trans rfl⟩

theorem llm_exc_spec (p : LLMProgressProcessor) (failAt : Option Nat)
    (f : Frame) (d : Direction) (now : Nat) :
    ((p.processFrameExc failAt f d now).2.2 = true →
       forwards (p.processFrameExc failAt f d now).2.1 = []) ∧
    ((p.processFrameExc failAt f d now).2.2 = false →
       ((p.processFrameExc failAt f d now).1,
        (p.processFrameExc failAt f d now).2.1) = p.processFrame f d now) := by
  cases f
  case llmFullResponseStart =>
    exact ⟨(emitStep_spec _ _ _ _ _).1,
           fun h => (emitStep_ok_pair _ _ _ _ _ h).trans rfl⟩
  case llmText text =>
    exact ⟨(emitStep_spec _ _ _ _ _).1,
           fun h => (emitStep_ok_pair _ _ _ _ _ h).trans rfl⟩
  case llmFullResponseEnd =>
    by_cases he : p.assistantText = ""
    · have e1 : p.processFrameExc failAt .llmFullResponseEnd d now
          = emitStep failAt [sendLog "Sending to TTS..."] p .llmFullResponseEnd d := by
        unfold LLMProgressProcessor.processFrameExc
        rw [if_pos he]
      have e2 : p.processFrame .llmFullResponseEnd d now
          = (p, [.notify (sendLog "Sending to TTS..."),
                 .forward .llmFullResponseEnd d]) := by
        unfold LLMProgressProcessor.processFrame
        rw [if_pos he]
      rw [e1, e2]
      exact ⟨(emitStep_spec _ _ _ _ _).1,
             fun h => (emitStep_ok_pair _ _ _ _ _ h).trans rfl⟩
    · have e2 : p.processFrame .llmFullResponseEnd d now
          = ({ p with assistantText := "" },
             [.notify (sendTranscript "assistant" p.assistantText true
                (some p.assistantMessageId) now),
              .notify (sendLog ("LLM complete: " ++
                toString p.assistantText.length ++ " chars")),
              .notify (sendLog "Sending to TTS..."),
              .forward .llmFullResponseEnd d]) := by
        unfold LLMProgressProcessor.processFrame
        rw [if_neg he]
      unfold LLMProgressProcessor.processFrameExc
      rw [if_neg he, e2]
      by_cases hr1 : (emitFrom failAt 0
          [sendTranscript "assistant" p.assistantText true
             (some p.assistantMessageId) now,
           sendLog ("LLM complete: " ++
             toString p.assistantText.length ++ " chars")]).2 = true
      · simp only [hr1, if_true]
        exact ⟨(fun _ => emitFrom_forwards _ _ _), fun h => nomatch h⟩
      · have hr1f : (emitFrom failAt 0
            [sendTranscript "assistant" p.assistantText true
               (some p.assistantMessageId) now,
             sendLog ("LLM complete: " ++
               toString p.assistantText.length ++ " chars")]).2 = false := by
          simpa using hr1
        simp only [hr1f, Bool.false_eq_true, if_false]
        by_cases hr2 : (emitFrom failAt 2 [sendLog "Sending to TTS..."]).2 = true
        · simp only [hr2, if_true]
          refine ⟨fun _ => ?_, fun h => nomatch h⟩
          rw [forwards_append, emitFrom_forwards, emitFrom_forwards]
          rfl
        · have hr2f : (emitFrom failAt 2 [sendLog "Sending to TTS..."]).2 = false := by
            simpa using hr2
          simp only [hr2f, Bool.false_eq_true, if_false]
          refine ⟨(fun h => nomatch h), fun _ => ?_⟩
          rw [emitFrom_ok _ _ _ hr1f, emitFrom_ok _ _ _ hr2f]
          rfl
  all_goals exact ⟨(fun h => nomatch h), fun _ => rfl⟩

/-- C7 counterexample: with a sink that raises on the first notification
push, handling `FinalTranscript "hi"` lets the exception escape and the
underlying event is NOT forwarded — so a notification-emission failure does
suppress forwarding, contrary to the claim (there is no `try`/`except` in
`process_frame`). -/
theorem notification_failure_counterexample :
    ((⟨0⟩ : STTProgressProcessor).processFrameExc (some 0)
        (.transcription "hi") .downstream 0).2.2 = true ∧
    forwards ((⟨0⟩ : STTProgressProcessor).processFrameExc (some 0)
        (.transcription "hi") .downstream 0).2.1 = [] :=
  ⟨rfl, rfl⟩

/-- C7 (amended): for each of the three observers, if an exception is raised
while emitting a notification for an event, the exception propagates out of
the handler and the underlying primary-path event is not forwarded (the
handlers contain no exception handling); when no emission raises, handling
coincides with the normal model. -/
theorem notification_failure_propagates :
    (∀ (p : STTProgressProcessor) (failAt : Option Nat) (f : Frame)
        (d : Direction) (now : Nat),
       ((p.processFrameExc failAt f d now).2.2 = true →
          forwards (p.processFrameExc failAt f d now).2.1 = []) ∧
       ((p.processFrameExc failAt f d now).2.2 = false →
          ((p.processFrameExc failAt f d now).1,
           (p.processFrameExc failAt f d now).2.1) = p.processFrame f d now)) ∧
    (∀ (p : LLMProgressProcessor) (failAt : Option Nat) (f : Frame)
        (d : Direction) (now : Nat),
       ((p.processFrameExc failAt f d now).2.2 = true →
          forwards (p.processFrameExc failAt f d now).2.1 = []) ∧
       ((p.processFrameExc failAt f d now).2.2 = false →
          ((p.processFrameExc failAt f d now).1,
           (p.processFrameExc failAt f d now).2.1) = p.processFrame f d now)) ∧
    (∀ (p : TTSStatusProcessor) (failAt : Option Nat) (f : Frame)
        (d : Direction),
       ((p.processFrameExc failAt f d).2.2 = true →
          forwards (p.processFrameExc failAt f d).2.1 = []) ∧
       ((p.processFrameExc failAt f d).2.2 = false →
          ((p.processFrameExc failAt f d).1,
           (p.processFrameExc failAt f d).2.1) = p.processFrame f d)) :=
  ⟨stt_exc_spec, llm_exc_spec, tts_exc_spec⟩

/-- Witness for amended C7: at a concrete state, a raise on the first push
forwards nothing, while a run with no raise coincides with the normal
handler. -/
theorem notification_failure_propagates_witness :
    forwards ((⟨0⟩ : STTProgressProcessor).processFrameExc (some 0)
        (.transcription "ok") .downstream 4).2.1 = [] ∧
    (((⟨0⟩ : STTProgressProcessor).processFrameExc none
        (.transcription "ok") .downstream 4).1,
     ((⟨0⟩ : STTProgressProcessor).processFrameExc none
        (.transcription "ok") .downstream 4).2.1) =
      (⟨0⟩ : STTProgressProcessor).processFrame (.transcription "ok") .downstream 4 :=
  ⟨(notification_failure_propagates.1 ⟨0⟩ (some 0)
      (.transcription "ok") .downstream 4).1 (by decide),
   (notification_failure_propagates.1 ⟨0⟩ none
      (.transcription "ok") .downstream 4).2 (by decide)⟩
